import Mathlib

/-!
# Verification of the tweet poll-dedupe-notify service

Shallow embedding of the core of `rodionlim/tweet`:
the query builder (`parseQuery`, `WithKeywords`), the persistent cursor
store (`StoreLatestTweetID`), the fetch operation (`Get`), the poll-tick
body (`run` closure of `start` in `main.go`) and the HTTP lifecycle
handlers (`startHandler`, `stopHandler`).

Strings are Lean `String`s; Go's byte-wise lexicographic string order
agrees with Lean's order on `String` (UTF-8 encoding is order-preserving
on code points), so `≤`/`<` on `String` model Go's `<=`/`<`.
Go maps read as `m[k]` with an `ok` flag are modelled by association
lists with `List.lookup`.  Effects that only log are dropped; a Go
nil-pointer dereference (panic) is modelled by an `Option`-valued
function returning `none`.
-/

namespace Tweet

/-- Model of Go `strings.Split(s, sep)` for a one-character separator,
on the character list of the string: splits at every occurrence of the
separator; the empty input yields one empty field, matching Go. -/
def splitChar (sep : Char) : List Char → List (List Char)
  | [] => [[]]
  | c :: cs =>
    let r := splitChar sep cs
    if c = sep then [] :: r
    else
      match r with
      | [] => [[c]]
      | h :: t => (c :: h) :: t

/-- Go `strings.Split(s, sep)` for a one-character separator, at the
`String` level. -/
def goSplit (sep : Char) (s : String) : List String :=
  (splitChar sep s.data).map fun l => ⟨l⟩

/-- Model of Go `strings.Join(elems, sep)`. -/
def goJoin (sep : String) : List String → String
  | [] => ""
  | [s] => s
  | s :: rest => s ++ sep ++ goJoin sep rest

/-- Per-character escaping of Go `strconv.Quote` (reached via
`fmt.Sprintf("%q", w)` in `WithKeywords`): quote and backslash are
backslash-escaped, the common control characters get their mnemonic
escapes and printable characters pass through unchanged. -/
def goQuoteChar (c : Char) : List Char :=
  if c = '"' then ['\\', '"']
  else if c = '\\' then ['\\', '\\']
  else if c = '\n' then ['\\', 'n']
  else if c = '\t' then ['\\', 't']
  else if c = '\r' then ['\\', 'r']
  else [c]

/-- Model of Go `fmt.Sprintf("%q", s)`: the escaped characters wrapped
in double quotes. -/
def goQuote (s : String) : String :=
  ⟨'"' :: (s.data.map goQuoteChar).flatten ++ ['"']⟩

/-! ## Cursor store: `StoreLatestTweetID` (tweet.go)

The bolt transaction reads the previous value under key `newest` and
writes the candidate only when no previous value exists or the previous
value is strictly smaller (Go: `prevNewestID != nil && string(prevNewestID) >= id`
skips the write).  An empty candidate is rejected with the
`invalid id` error before the transaction. -/

/-- One `StoreLatestTweetID` call: given the candidate id (the request's
`tweets.Meta.NewestID`) and the currently stored cursor, return the
error or the new stored cursor. -/
def StoreLatestTweetID (id : String) (prev : Option String) :
    Except String (Option String) :=
  if id = "" then .error "invalid id"
  else
    match prev with
    | some p => if p ≥ id then .ok (some p) else .ok (some id)
    | none => .ok (some id)

/-- A sequence of `StoreLatestTweetID` calls against the store: an
erroring call leaves the stored cursor unchanged. -/
def runStoreSeq (prev : Option String) (vs : List String) : Option String :=
  vs.foldl
    (fun c v =>
      match StoreLatestTweetID v c with
      | .ok c' => c'
      | .error _ => c)
    prev

/-! ## Data model (tweet.go) -/

/-- One tweet record: the Go `map[string]string`, as an association
list read with `List.lookup`. -/
abbrev Record : Type := List (String × String)

/-- `Meta` of a twitter response. -/
structure Meta where
  NewestID : String
  OldestID : String
  ResultCount : Nat
  NextToken : String
deriving DecidableEq, Repr

/-- `Tweets`: record list plus metadata. -/
structure Tweets where
  TData : List Record
  TMeta : Meta
deriving DecidableEq, Repr

/-- Go zero value of `Tweets` (fresh `Req.tweets`). -/
def Tweets.zero : Tweets := ⟨[], ⟨"", "", 0, ""⟩⟩

/-- `url.Values.Set`: replace the value under a key (one value per key). -/
def setKV (ps : List (String × String)) (k v : String) : List (String × String) :=
  ps.filter (fun p => p.1 ≠ k) ++ [(k, v)]

/-- `Req`: parameters of one twitter API GET request. -/
structure Req where
  schemeHost : String
  endpoint : String
  queryParams : List (String × String)
  usersFilter : List String
  keywordFilter : List String
  tweets : Tweets
deriving Repr

/-- `Req.setQueryParam`. -/
def Req.setQueryParam (r : Req) (k v : String) : Req :=
  { r with queryParams := setKV r.queryParams k v }

/-! ## Query builder (tweet.go: `parseQuery`, `WithKeywords`, `NewReq`) -/

/-- `parseQuery`: builds the `query` parameter.  The user group is
`"(from:" + strings.Join(users, " OR ") + ")"` when users are present,
the keyword group is always `"(" + strings.Join(keywords, " OR ") + ")"`,
and the query is keyword group followed by user group. -/
def Req.parseQuery (r : Req) : Req :=
  let uf : String :=
    if r.usersFilter.length > 0 then
      "(from:" ++ goJoin " OR " r.usersFilter ++ ")"
    else ""
  let kf : String := "(" ++ goJoin " OR " r.keywordFilter ++ ")"
  if uf.length > 0 ∨ kf.length > 0 then r.setQueryParam "query" (kf ++ uf)
  else r

/-- The keyword escaping performed by `WithKeywords`: a keyword that
`strings.Split(w, " ")` cuts into more than one part is quoted with
`%q` as an exact phrase; others pass through. -/
def escapeKeyword (w : String) : String :=
  if (splitChar ' ' w.data).length > 1 then goQuote w else w

/-- `WithKeywords` option: store the escaped keywords. -/
def WithKeywords (keywords : List String) (r : Req) : Req :=
  { r with keywordFilter := keywords.map escapeKeyword }

/-- `WithUsers` option: store the user filter. -/
def WithUsers (users : List String) (r : Req) : Req :=
  { r with usersFilter := users }

/-- `NewReq`: defaults plus the two fixed query parameters, then the
options applied in order. -/
def NewReq (opts : List (Req → Req)) : Req :=
  let base : Req :=
    { schemeHost := "https://api.twitter.com"
      endpoint := "/2/tweets/search/recent"
      queryParams := setKV (setKV [] "tweet.fields" "created_at,text") "max_results" "10"
      usersFilter := []
      keywordFilter := []
      tweets := Tweets.zero }
  opts.foldl (fun r o => o r) base

/-- The `query` parameter value of a request after `parseQuery`. -/
def queryOf (r : Req) : Option String :=
  r.parseQuery.queryParams.lookup "query"

/-! ## Fetch: `Get` (tweet.go)

`Get` fails when the bearer token is unset (auth error) or when the
transport fails; once any HTTP response is delivered, the body-read
error and the `json.Unmarshal` error are both discarded (`body, _ :=`
and an unchecked `Unmarshal`), so the call succeeds and returns
`r.tweets` — updated only if the body parsed.  The status code is never
inspected.  `unmarshal` models `json.Unmarshal` into `Tweets`:
`none` (parse failure) leaves the previous value in place. -/

/-- An HTTP response as delivered by the transport. -/
structure HttpResp where
  Status : Nat
  Body : String

/-- Errors of `Get`. -/
inductive GetErr where
  | authError
  | transportError (msg : String)
deriving DecidableEq, Repr

/-- `Req.Get`, with the environment (token presence, transport outcome,
JSON decoder) passed explicitly. -/
def Req.Get (r : Req) (token : Option String)
    (transport : Except String HttpResp)
    (unmarshal : String → Option Tweets) : Except GetErr (Tweets × Req) :=
  match token with
  | none => .error .authError
  | some _ =>
    let r := r.parseQuery
    match transport with
    | .error e => .error (.transportError e)
    | .ok resp =>
      let t := (unmarshal resp.Body).getD r.tweets
      .ok (t, { r with tweets := t })

/-! ## The poll tick: the `run` closure of `start` (main.go)

```
tweets, err := req.Get()
if err != nil { logger.Error(err) }
req.StoreLatestTweetID()
tdata.Tweets = tweets
for _, tweet := range tweets.Data {
    msg, exists := tweet["text"]
    if !exists { continue }
    notifierObj.notifier.Notify(msg, notifierObj.notifyArgs)
}
```

`req.Get()` returns a nil `*Tweets` exactly when it errors, so after a
failed fetch `tweets.Data` dereferences nil and panics; likewise
`notifierObj` is a nil pointer when no slack channel was configured, so
the first record carrying a `text` field panics at
`notifierObj.notifier`.  A panic in the `start` goroutine kills the
process; both are modelled by `none`. -/

/-- Slack arguments of the configured notifier. -/
structure SlackArgs where
  ChannelID : String
deriving DecidableEq, Repr

/-- The handler's notifier bundle (`nil` pointer modelled by `Option`
at use sites). -/
structure NotifierObj where
  notifyArgs : SlackArgs
deriving DecidableEq, Repr

/-- The notification loop over the fetched records: skip records
without a `text` key, otherwise call `Notify` with the text (collected
in order); with a nil `notifierObj` the first such call panics
(`none`).  Notify's return value is discarded by the caller. -/
def notifyPhase (nob : Option NotifierObj) : List Record → Option (List String)
  | [] => some []
  | r :: rest =>
    match List.lookup "text" r with
    | none => notifyPhase nob rest
    | some msg =>
      match nob with
      | none => none
      | some _ => (notifyPhase nob rest).map (msg :: ·)

/-- Outcome of one non-panicking tick. -/
structure RunOut where
  cursor : Option String
  tdTweets : Option Tweets
  notified : List String
deriving DecidableEq, Repr

/-- One tick of the poll loop (`run`).  `getRes` is the outcome of
`req.Get()` (`.ok t` means the returned pointer holds `t` and the
request's `tweets` field was updated to `t`; `.error` means the pointer
is nil and `prevReqTweets` is untouched).  `cursor` is the stored
cursor; the cursor write uses the request's `tweets.Meta.NewestID` and
an erroring write leaves the cursor as is.  Returns `none` when the
tick panics. -/
def run (getRes : Except GetErr Tweets) (prevReqTweets : Tweets)
    (cursor : Option String) (nob : Option NotifierObj) : Option RunOut :=
  let rTweets : Tweets :=
    match getRes with
    | .ok t => t
    | .error _ => prevReqTweets
  let cursor' : Option String :=
    match StoreLatestTweetID rTweets.TMeta.NewestID cursor with
    | .ok c => c
    | .error _ => cursor
  match getRes with
  | .error _ => none
  | .ok t =>
    match notifyPhase nob t.TData with
    | none => none
    | some msgs => some ⟨cursor', some t, msgs⟩

/-! ## Lifecycle handlers (main.go) -/

/-- HTTP methods the handlers distinguish. -/
inductive Method where
  | OPTIONS
  | POST
  | GET
deriving DecidableEq, Repr

/-- `templateData`: the shared server state (the `mutex` field is the
lock itself and carries no data). -/
structure TemplateData where
  Started : Bool
  SchemeHostPort : String
  SearchTerms : List String
  Tweets : Option Tweets
  Cancel : Option Nat
deriving DecidableEq, Repr

/-- `NewTemplateData`: fresh state — not started, no cancel handle. -/
def NewTemplateData (schemeHostPort : String) (st : List String) : TemplateData :=
  { Started := false
    SchemeHostPort := schemeHostPort
    SearchTerms := st
    Tweets := none
    Cancel := none }

/-- Responses of `startHandler`. -/
inductive StartResp where
  | corsNoop
  | alreadyStarted
  | started
  | methodNotAllowed
deriving DecidableEq, Repr

/-- The parameters the handler packs into the context for the spawned
`start` goroutine. -/
structure StartCfg where
  keywords : List String
  intervalSeconds : Nat
  notifierObj : Option NotifierObj
deriving DecidableEq, Repr

/-- `startHandler`: OPTIONS is a CORS no-op; POST rejects when already
started (before touching any state), otherwise records a fresh cancel
handle, parses the comma-separated keywords (trimmed), builds the
notifier bundle only when a slack channel id is supplied, and spawns
the loop; other methods are rejected.  `freshCancel` stands for the
new `context.WithCancel` handle. -/
def startHandler (m : Method) (body : List (String × String))
    (freshCancel : Nat) (td : TemplateData) :
    StartResp × TemplateData × Option StartCfg :=
  match m with
  | .OPTIONS => (.corsNoop, td, none)
  | .POST =>
    if td.Started then (.alreadyStarted, td, none)
    else
      let kwStr := (body.lookup "keywords").getD ""
      let kw := (goSplit ',' kwStr).map String.trim
      let slackChannel := (body.lookup "slackChannelID").getD ""
      let nob : Option NotifierObj :=
        if slackChannel ≠ "" then some ⟨⟨slackChannel⟩⟩ else none
      (.started, { td with Cancel := some freshCancel },
        some ⟨kw, 180, nob⟩)
  | .GET => (.methodNotAllowed, td, none)

/-- Responses of `stopHandler`. -/
inductive StopResp where
  | corsNoop
  | stopped
  | methodNotAllowed
deriving DecidableEq, Repr

/-- `stopHandler`: POST dereferences `*tdata.Cancel` unconditionally —
with no registered handle this is a nil-pointer dereference, modelled
by `none`; with a handle it invokes the cancellation (the `Bool`
records that) and reports success.  The running flag is reset later by
the loop goroutine, not here. -/
def stopHandler (m : Method) (td : TemplateData) :
    Option (StopResp × TemplateData × Bool) :=
  match m with
  | .OPTIONS => some (.corsNoop, td, false)
  | .POST =>
    match td.Cancel with
    | none => none
    | some _ => some (.stopped, td, true)
  | .GET => some (.methodNotAllowed, td, false)

/-! ## Helper lemmas -/

lemma foldl_max_mem (l : List String) (a : String) :
    l.foldl max a = a ∨ l.foldl max a ∈ l := by
  induction l generalizing a with
  | nil => exact Or.inl rfl
  | cons b l ih =>
    rcases ih (max a b) with h | h
    · rcases max_choice a b with hm | hm
      · exact Or.inl (by rw [List.foldl_cons, h, hm])
      · exact Or.inr (by rw [List.foldl_cons, h, hm]; exact List.mem_cons_self _ _)
    · exact Or.inr (List.mem_cons_of_mem _ h)

lemma le_foldl_max (l : List String) (a : String) : a ≤ l.foldl max a := by
  induction l generalizing a with
  | nil => exact le_refl a
  | cons b l ih => exact le_trans (le_max_left a b) (ih (max a b))

lemma mem_le_foldl_max (l : List String) (a : String) :
    ∀ x ∈ l, x ≤ l.foldl max a := by
  induction l generalizing a with
  | nil => intro x hx; cases hx
  | cons b l ih =>
    intro x hx
    rcases List.mem_cons.mp hx with rfl | hx'
    · exact le_trans (le_max_right a x) (le_foldl_max l (max a x))
    · exact ih (max a b) x hx'

lemma runStoreSeq_some (vs : List String) : ∀ p : String, (∀ v ∈ vs, v ≠ "") →
    runStoreSeq (some p) vs = some (vs.foldl max p) := by
  induction vs with
  | nil => intro p _; rfl
  | cons v rest ih =>
    intro p hv
    have hv0 : v ≠ "" := hv v (List.mem_cons_self _ _)
    have hstep : runStoreSeq (some p) (v :: rest) =
        runStoreSeq (some (max p v)) rest := by
      unfold runStoreSeq
      rw [List.foldl_cons]
      congr 1
      simp only [StoreLatestTweetID, if_neg hv0]
      by_cases hpv : p ≥ v
      · rw [if_pos hpv, max_eq_left hpv]
      · rw [if_neg hpv, max_eq_right (le_of_not_le hpv)]
    rw [hstep, ih (max p v) (fun x hx => hv x (List.mem_cons_of_mem _ hx)),
      List.foldl_cons]

lemma lookup_setKV (ps : List (String × String)) (k v : String) :
    List.lookup k (setKV ps k v) = some v := by
  induction ps with
  | nil => simp [setKV]
  | cons p ps ih =>
    by_cases hp : p.1 = k
    · simpa [setKV, List.filter_cons, hp] using ih
    · simp only [setKV, List.filter_cons] at ih ⊢
      rw [if_pos (by simpa using hp)]
      cases p with
      | mk pk pv =>
        simpa [List.lookup, beq_eq_false_iff_ne.mpr (Ne.symm hp)] using ih

lemma parseQuery_queryOf (r : Req) :
    queryOf r = some (("(" ++ goJoin " OR " r.keywordFilter ++ ")") ++
      (if r.usersFilter.length > 0 then
        "(from:" ++ goJoin " OR " r.usersFilter ++ ")" else "")) := by
  unfold queryOf Req.parseQuery
  rw [if_pos (Or.inr (by
    rw [String.length_append]
    have h1 : ")".length = 1 := rfl
    omega))]
  exact lookup_setKV _ _ _

lemma parseQuery_tweets (r : Req) : r.parseQuery.tweets = r.tweets := by
  unfold Req.parseQuery Req.setQueryParam
  split <;> dsimp only <;> split <;> rfl

lemma notifyPhase_some (nob : NotifierObj) (data : List Record) :
    notifyPhase (some nob) data =
      some (data.filterMap fun r => List.lookup "text" r) := by
  induction data with
  | nil => rfl
  | cons r rest ih =>
    cases hl : List.lookup "text" r with
    | none =>
      rw [List.filterMap_cons_none (by simpa using hl)]
      simpa [notifyPhase, hl] using ih
    | some msg =>
      rw [List.filterMap_cons_some (by simpa using hl)]
      simp [notifyPhase, hl, ih]

lemma filterMap_sublist_of_imp {α β : Type} (f g : α → Option β)
    (h : ∀ x, f x = none ∨ f x = g x) (l : List α) :
    List.Sublist (l.filterMap f) (l.filterMap g) := by
  induction l with
  | nil => simp
  | cons a l ih =>
    rcases h a with ha | ha
    · rw [List.filterMap_cons_none (by simpa using ha)]
      cases hg : g a with
      | none => rw [List.filterMap_cons_none (by simpa using hg)]; exact ih
      | some b =>
        rw [List.filterMap_cons_some (by simpa using hg)]
        exact ih.cons b
    · cases hg : g a with
      | none =>
        rw [List.filterMap_cons_none (by simpa [ha] using hg),
          List.filterMap_cons_none (by simpa using hg)]
        exact ih
      | some b =>
        rw [List.filterMap_cons_some (by simpa [ha] using hg),
          List.filterMap_cons_some (by simpa using hg)]
        exact ih.cons₂ b

lemma filterMap_filter_isSome (f : Record → Option String) (data : List Record) :
    (data.filter fun r => (f r).isSome).filterMap f = data.filterMap f := by
  induction data with
  | nil => rfl
  | cons r rest ih =>
    cases hf : f r with
    | none => simp [List.filter_cons, hf, ih,
        List.filterMap_cons_none (f := f) (by simpa using hf)]
    | some t => simp [List.filter_cons, hf, ih]

lemma goJoin_cons_cons (sep a b : String) (l : List String) :
    goJoin sep (a :: b :: l) = a ++ sep ++ goJoin sep (b :: l) := rfl

lemma isInfix_goJoin (sep : String) (s : String) (l : List String) (hs : s ∈ l) :
    s.data <:+: (goJoin sep l).data := by
  induction l with
  | nil => cases hs
  | cons a l ih =>
    cases l with
    | nil =>
      have : s = a := by simpa using hs
      subst this
      exact ⟨[], [], by simp [goJoin]⟩
    | cons b l' =>
      rw [goJoin_cons_cons, String.data_append, String.data_append]
      rcases List.mem_cons.mp hs with rfl | hmem
      · exact ⟨[], sep.data ++ (goJoin sep (b :: l')).data, by simp⟩
      · exact (ih hmem).trans ⟨a.data ++ sep.data, [], by simp⟩

lemma splitChar_length_pos (sep : Char) (l : List Char) :
    0 < (splitChar sep l).length := by
  induction l with
  | nil => simp [splitChar]
  | cons c cs ih =>
    by_cases h : c = sep
    · simp [splitChar, h]
    · simp only [splitChar, if_neg h]
      cases hr : splitChar sep cs with
      | nil => simp
      | cons a t => simp

lemma mem_splitChar_length_gt (sep : Char) (l : List Char) (h : sep ∈ l) :
    1 < (splitChar sep l).length := by
  induction l with
  | nil => cases h
  | cons c cs ih =>
    by_cases hc : c = sep
    · subst hc
      have h0 := splitChar_length_pos c cs
      have hrw : splitChar c (c :: cs) = [] :: splitChar c cs := by
        simp [splitChar]
      rw [hrw, List.length_cons]
      omega
    · have hmem : sep ∈ cs := by
        rcases List.mem_cons.mp h with h1 | h1
        · exact absurd h1.symm hc
        · exact h1
      have h1 := ih hmem
      have h0 := splitChar_length_pos sep cs
      simp only [splitChar, if_neg hc]
      cases hr : splitChar sep cs with
      | nil => rw [hr] at h0; simp at h0
      | cons a t =>
        rw [hr] at h1
        simpa using h1

lemma escapeKeyword_quotes_of_space (w : String) (h : ' ' ∈ w.data) :
    escapeKeyword w = goQuote w := by
  unfold escapeKeyword
  rw [if_pos (mem_splitChar_length_gt ' ' w.data h)]

/-! ## Claims -/

/-- C1: every sequence of `StoreLatestTweetID` calls with (non-empty)
values `v1..vn` leaves the store holding `max(v1..vn)` under the
lexicographic string order, and a call whose candidate is `≤` the
stored cursor is a silent no-op (the stored value is returned
unchanged with no error): the cursor is never rewound. -/
theorem C1_cursor_monotonic (vs : List String) (hne : vs ≠ [])
    (hv : ∀ v ∈ vs, v ≠ "") :
    (∃ m, runStoreSeq none vs = some m ∧ m ∈ vs ∧ ∀ v ∈ vs, v ≤ m) ∧
    (∀ p v : String, v ≠ "" → v ≤ p →
      StoreLatestTweetID v (some p) = .ok (some p)) := by
  constructor
  · match vs, hne with
    | v :: rest, _ =>
      have hv0 : v ≠ "" := hv v (List.mem_cons_self _ _)
      have h1 : runStoreSeq none (v :: rest) = runStoreSeq (some v) rest := by
        unfold runStoreSeq
        rw [List.foldl_cons]
        congr 1
        simp [StoreLatestTweetID, hv0]
      rw [h1, runStoreSeq_some rest v (fun x hx => hv x (List.mem_cons_of_mem _ hx))]
      refine ⟨rest.foldl max v, rfl, ?_, ?_⟩
      · rcases foldl_max_mem rest v with h | h
        · rw [h]; exact List.mem_cons_self _ _
        · exact List.mem_cons_of_mem _ h
      · intro x hx
        rcases List.mem_cons.mp hx with rfl | hx'
        · exact le_foldl_max rest x
        · exact mem_le_foldl_max rest v x hx'
  · intro p v hv' hle
    simp [StoreLatestTweetID, hv', ge_iff_le, hle]

/-- C1 witness: the scenario cursor sequence 100, 150, 120 settles at
150, the maximum. -/
theorem C1_witness : ∃ m, runStoreSeq none ["100", "150", "120"] = some m ∧
    m ∈ ["100", "150", "120"] ∧ ∀ v ∈ ["100", "150", "120"], v ≤ m :=
  (C1_cursor_monotonic ["100", "150", "120"] (by decide) (by decide)).1

/-- C2: the claim says a failed fetch is logged and the loop continues
to the next tick.  In the code, `req.Get()` returns a nil `*Tweets`
together with the error; after logging, `run` still dereferences it at
`tweets.Data`, so every tick with a failed fetch panics (modelled by
`none`), killing the goroutine and the process — the loop does not
continue. -/
theorem C2_failed_fetch_panics (e : GetErr) (prevT : Tweets)
    (cursor : Option String) (nob : Option NotifierObj) :
    run (.error e) prevT cursor nob = none := rfl

/-- C3: the claim says that with no notification sink configured the
notify step is skipped without error even for records carrying a
`text` field.  In the code the handler leaves `notifierObj` a nil
pointer, and the first record with a `text` field dereferences it at
`notifierObj.notifier`: the tick panics (modelled by `none`) instead
of skipping the notify step. -/
theorem C3_nil_notifier_panics :
    run (.ok ⟨[[("text", "hello")]], ⟨"101", "100", 1, ""⟩⟩)
      Tweets.zero none none = none := rfl

/-- C7: a start command received while the loop is already running is
rejected (`400 Subscription already started`) before any state is
touched: the template data — running flag, cancellation handle, search
terms, last tweets — is returned unchanged and no poll loop is
spawned (hence the active filter and the stored cursor are untouched
as well). -/
theorem C7_start_already_running (body : List (String × String))
    (freshCancel : Nat) (td : TemplateData) (h : td.Started = true) :
    startHandler .POST body freshCancel td = (.alreadyStarted, td, none) := by
  simp [startHandler, h]

/-- C7 witness: a concrete running state rejects a second start
unchanged. -/
theorem C7_witness :
    startHandler .POST [("keywords", "oil,gold")] 7
      ⟨true, "http://localhost:3000", ["oil"], none, some 3⟩ =
      (.alreadyStarted, ⟨true, "http://localhost:3000", ["oil"], none, some 3⟩, none) :=
  C7_start_already_running _ _ _ rfl

/-- C8 counterexample: the claim says stop with no registered
cancellation handle returns NotRunningError — an error result, not a
crash.  On the fresh state (`NewTemplateData`, `Cancel` absent) the
POST branch executes `(*tdata.Cancel)()` and dereferences the nil
handle: the handler panics (modelled by `none`) and returns no result
at all. -/
theorem C8_counterexample :
    stopHandler .POST (NewTemplateData "http://localhost:3000" []) = none := rfl

/-- C8 (amended): for every state with no registered cancellation
handle, the stop command panics on the nil handle dereference
(modelled by `none`) — it crashes rather than returning a
NotRunningError result; no state mutation is performed before the
panic. -/
theorem C8_stop_without_handle_panics (td : TemplateData)
    (h : td.Cancel = none) : stopHandler .POST td = none := by
  simp [stopHandler, h]

/-- C8 witness: a concrete idle state without a handle panics on
stop. -/
theorem C8_witness :
    stopHandler .POST ⟨false, "http://h:80", ["gold"], none, none⟩ = none :=
  C8_stop_without_handle_panics _ rfl

/-- C5 counterexample: the claim says an empty keyword list makes the
query builder fail with a ValidationError.  There is no validation
anywhere in the builder: with no keywords (and no users) the query is
produced and equals the empty group `()`. -/
theorem C5_counterexample :
    queryOf (NewReq [WithKeywords []]) = some "()" := rfl

/-- C5 (amended): a request with an empty keyword list is not
rejected; the builder always produces a query whose keyword group is
the empty parenthesized group `()`, followed by the user group when
users are present. -/
theorem C5_empty_keywords_not_rejected (r : Req) (hk : r.keywordFilter = []) :
    queryOf r = some ("()" ++
      (if r.usersFilter.length > 0 then
        "(from:" ++ goJoin " OR " r.usersFilter ++ ")" else "")) := by
  rw [parseQuery_queryOf, hk]
  rfl

/-- C5 witness: a concrete request with empty keywords and one user
produces `()(from:markets)`. -/
theorem C5_witness :
    queryOf (NewReq [WithUsers ["markets"], WithKeywords []]) =
      some ("()" ++
        (if (NewReq [WithUsers ["markets"], WithKeywords []]).usersFilter.length > 0 then
          "(from:" ++ goJoin " OR "
            (NewReq [WithUsers ["markets"], WithKeywords []]).usersFilter ++ ")"
        else "")) :=
  C5_empty_keywords_not_rejected _ rfl

/-- C6: the messages handed to the notification sink by the tick's
record loop: a record lacking a `text` field never reaches the sink
(dropping all such records leaves the calls unchanged), and the texts
of the records with a non-empty `text` field all reach the sink, as an
order-preserving sublist of the calls (in the original order of the
result list). -/
theorem C6_record_filtering (nob : NotifierObj) (data : List Record) :
    ∃ msgs, notifyPhase (some nob) data = some msgs ∧
      notifyPhase (some nob)
        (data.filter fun r => (List.lookup "text" r).isSome) = some msgs ∧
      List.Sublist
        (data.filterMap fun r =>
          (List.lookup "text" r).bind fun t => if t = "" then none else some t)
        msgs := by
  refine ⟨data.filterMap (fun r => List.lookup "text" r),
    notifyPhase_some nob data, ?_, ?_⟩
  · rw [notifyPhase_some, filterMap_filter_isSome]
  · apply filterMap_sublist_of_imp
    intro r
    cases List.lookup "text" r with
    | none => exact Or.inl rfl
    | some t =>
      by_cases ht : t = ""
      · exact Or.inl (by simp [ht])
      · exact Or.inr (by simp [ht])

/-- C10: once the transport delivers any HTTP response — the status
code is never inspected, so non-2xx responses included — `Get`
succeeds; and when the body fails to decode (invalid JSON, or an
ignored body-read error leaving garbage) the decode error is discarded
and the previously stored `tweets` value of the request is returned as
if it were the fetch result. -/
theorem C10_get_ignores_bad_responses (tok : String) (resp : HttpResp)
    (unmarshal : String → Option Tweets) (r : Req) :
    (∃ t r', r.Get (some tok) (.ok resp) unmarshal = .ok (t, r')) ∧
    (unmarshal resp.Body = none →
      r.Get (some tok) (.ok resp) unmarshal =
        .ok (r.tweets, { r.parseQuery with tweets := r.tweets })) := by
  constructor
  · exact ⟨_, _, rfl⟩
  · intro h
    simp [Req.Get, h, parseQuery_tweets]

/-- C10 witness: a 500 response whose body decodes to nothing still
yields a successful fetch returning the request's previous (empty)
tweets. -/
theorem C10_witness :
    (NewReq []).Get (some "tok") (.ok ⟨500, "not json"⟩) (fun _ => none) =
      .ok ((NewReq []).tweets,
        { (NewReq []).parseQuery with tweets := (NewReq []).tweets }) :=
  (C10_get_ignores_bad_responses "tok" ⟨500, "not json"⟩ (fun _ => none)
    (NewReq [])).2 rfl

/-- C4 counterexample: the claim says the query contains every user
prefixed by `from:`.  With users `alice, bob` (and keyword `oil`) the
builder produces `(oil)(from:alice OR bob)` — only the first user
carries the `from:` prefix; `from:bob` occurs nowhere in the query. -/
theorem C4_counterexample :
    queryOf (NewReq [WithUsers ["alice", "bob"], WithKeywords ["oil"]]) =
      some "(oil)(from:alice OR bob)" ∧
    ¬ ("from:bob".data <:+: "(oil)(from:alice OR bob)".data) :=
  ⟨rfl, by decide⟩

/-- C4 (amended): for non-empty keyword and user lists the query is
the parenthesized OR-join of the keyword filter followed directly by
the parenthesized OR-join of the users with `from:` prefixed once, to
the group (hence to its first user); every keyword-filter entry and
every user occurs in the query. -/
theorem C4_query_structure (kws users : List String) (hk : kws ≠ [])
    (hu : users ≠ []) (r : Req) (hrk : r.keywordFilter = kws)
    (hru : r.usersFilter = users) :
    queryOf r = some (("(" ++ goJoin " OR " kws ++ ")") ++
      ("(from:" ++ goJoin " OR " users ++ ")")) ∧
    (∀ kw ∈ kws, kw.data <:+:
      (("(" ++ goJoin " OR " kws ++ ")") ++
        ("(from:" ++ goJoin " OR " users ++ ")")).data) ∧
    (∀ u ∈ users, u.data <:+:
      (("(" ++ goJoin " OR " kws ++ ")") ++
        ("(from:" ++ goJoin " OR " users ++ ")")).data) := by
  refine ⟨?_, ?_, ?_⟩
  · rw [parseQuery_queryOf, hrk, hru,
      if_pos (by simpa using List.length_pos.mpr hu)]
  · intro kw hkw
    have h := isInfix_goJoin " OR " kw kws hkw
    rw [String.data_append, String.data_append, String.data_append,
      String.data_append, String.data_append]
    exact h.trans ⟨"(".data,
      ")".data ++ ("(from:".data ++ (goJoin " OR " users).data ++ ")".data),
      by simp⟩
  · intro u hu'
    have h := isInfix_goJoin " OR " u users hu'
    rw [String.data_append, String.data_append, String.data_append,
      String.data_append, String.data_append]
    exact h.trans ⟨("(".data ++ (goJoin " OR " kws).data ++ ")".data) ++
      "(from:".data, ")".data, by simp⟩

/-- C4 witness: keyword `oil` with users `alice, bob`. -/
theorem C4_witness :
    queryOf (NewReq [WithUsers ["alice", "bob"], WithKeywords ["oil"]]) =
      some (("(" ++ goJoin " OR " ["oil"] ++ ")") ++
        ("(from:" ++ goJoin " OR " ["alice", "bob"] ++ ")")) ∧
    (∀ kw ∈ ["oil"], kw.data <:+:
      (("(" ++ goJoin " OR " ["oil"] ++ ")") ++
        ("(from:" ++ goJoin " OR " ["alice", "bob"] ++ ")")).data) ∧
    (∀ u ∈ ["alice", "bob"], u.data <:+:
      (("(" ++ goJoin " OR " ["oil"] ++ ")") ++
        ("(from:" ++ goJoin " OR " ["alice", "bob"] ++ ")")).data) :=
  C4_query_structure ["oil"] ["alice", "bob"] (by decide) (by decide)
    (NewReq [WithUsers ["alice", "bob"], WithKeywords ["oil"]]) rfl rfl

/-- C9 counterexample: the claim says every keyword containing
whitespace is quoted.  The keyword `a<TAB>b` contains whitespace, but
the builder splits on the space character only, leaves it unquoted,
and emits it bare in the final query. -/
theorem C9_counterexample :
    ("a\tb".data.any Char.isWhitespace = true) ∧
    escapeKeyword "a\tb" = "a\tb" ∧
    "a\tb" ≠ goQuote "a\tb" ∧
    queryOf (NewReq [WithUsers ["markets"], WithKeywords ["a\tb"]]) =
      some "(a\tb)(from:markets)" :=
  ⟨by decide, rfl, by decide, rfl⟩

/-- C9 (amended): every keyword containing a space character — the
only separator the builder checks — is quoted as an exact phrase
before OR-joining; in particular keywords `central bank` with user
`markets` yield `("central bank")(from:markets)`. -/
theorem C9_space_keywords_quoted :
    (∀ w : String, ' ' ∈ w.data → escapeKeyword w = goQuote w) ∧
    queryOf (NewReq [WithUsers ["markets"], WithKeywords ["central bank"]]) =
      some "(\"central bank\")(from:markets)" :=
  ⟨fun w h => escapeKeyword_quotes_of_space w h, rfl⟩

/-- C9 witness: `central bank` contains a space and is quoted. -/
theorem C9_witness : escapeKeyword "central bank" = goQuote "central bank" :=
  C9_space_keywords_quoted.1 "central bank" (by decide)

end Tweet
